import Mathlib

/-!
Verification of `to_md/convert.py`, a converter from AI-enhanced arXiv JSONL
records to a Markdown digest.  Python values arising from `json.loads` are
modelled by the inductive type `Json`; Python dictionaries are association
lists with unique keys (as produced by `json.loads`), Python `or`-chains are
modelled through the truthiness function `truthy`, and code that can raise an
exception is modelled in `Except PyErr`.  JSON numbers are modelled as
integers (no claim depends on float formatting).
-/

/-- Model of a parsed JSON / Python value. -/
inductive Json where
  | null : Json
  | bool : Bool → Json
  | num : Int → Json
  | str : String → Json
  | arr : List Json → Json
  | obj : List (String × Json) → Json

/-- Python exceptions that the translated code can raise. -/
inductive PyErr where
  | attributeError : PyErr
  | typeError : PyErr
deriving DecidableEq, Repr

/-- Python truthiness of a value (`bool(x)`): `None`, `False`, `0`, `""`,
`[]` and `{}` are falsy, everything else is truthy. -/
def truthy : Json → Bool
  | Json.null => false
  | Json.bool b => b
  | Json.num n => n != 0
  | Json.str s => s != ""
  | Json.arr xs => !xs.isEmpty
  | Json.obj fs => !fs.isEmpty

/-- Model of Python `a or b`: `a` when truthy, else `b`. -/
def pyOr (a b : Json) : Json := if truthy a then a else b

/-- A single-quote character, used by `pyRepr` for string reprs. -/
def sglq : String := String.singleton (Char.ofNat 39)

/-- Model of Python `repr` on JSON-like values (scalars as printed by
CPython; strings quoted; containers printed recursively).  Escape
sequences inside reprs of exotic strings are not reproduced, which is
irrelevant here: no claim evaluates `str` on a container. -/
def pyRepr : Json → String
  | Json.null => "None"
  | Json.bool b => if b then "True" else "False"
  | Json.num n => toString n
  | Json.str s => sglq ++ s ++ sglq
  | Json.arr xs =>
      "[" ++ String.intercalate ", " (xs.attach.map (fun x => pyRepr x.1)) ++ "]"
  | Json.obj fs =>
      "\x7b" ++
        String.intercalate ", "
          (fs.attach.map (fun p => sglq ++ p.1.1 ++ sglq ++ ": " ++ pyRepr p.1.2)) ++
      "\x7d"
decreasing_by
  · have := List.sizeOf_lt_of_mem x.2
    simp only [Json.arr.sizeOf_spec]
    omega
  · have h1 := List.sizeOf_lt_of_mem p.2
    obtain ⟨⟨k, v⟩, hm⟩ := p
    simp only [Json.obj.sizeOf_spec, Prod.mk.sizeOf_spec] at *
    omega

/-- Model of Python `str(x)`: identity on strings, `repr` elsewhere. -/
def pyStr : Json → String
  | Json.str s => s
  | j => pyRepr j

/-- Model of `d.get(k)` on an association list (first match wins; the
dictionaries produced by `json.loads` have unique keys). -/
def dictGet : List (String × Json) → String → Option Json
  | [], _ => none
  | (k1, v) :: rest, k => if k1 == k then some v else dictGet rest k

/-- Record field access `item.get(k)` as used inside `or`-chains: an absent
key yields `None`, which is modelled by `Json.null`. -/
def getD (d : List (String × Json)) (k : String) : Json :=
  (dictGet d k).getD Json.null

/-- Model of `d.setdefault(k, v)`: keep an existing entry (regardless of its
value), otherwise append `(k, v)` at the end, as CPython dicts do. -/
def setdefault (d : List (String × Json)) (k : String) (v : Json) :
    List (String × Json) :=
  if (dictGet d k).isSome then d else d ++ [(k, v)]

/-- Model of `d[k] = v`: overwrite an existing entry in place, otherwise
append at the end. -/
def dictSet (d : List (String × Json)) (k : String) (v : Json) :
    List (String × Json) :=
  if (dictGet d k).isSome then
    d.map (fun p => if p.1 == k then (k, v) else p)
  else d ++ [(k, v)]

/-- Model of Python `str.isspace` on a single character (ASCII whitespace,
the C1 separators, and the Unicode space and line/paragraph separators). -/
def isPySpace (c : Char) : Bool :=
  let n := c.toNat
  (9 ≤ n && n ≤ 13) || n == 32 || (28 ≤ n && n ≤ 31) || n == 0x85 ||
    n == 0xa0 || n == 0x1680 || (0x2000 ≤ n && n ≤ 0x200a) ||
    n == 0x2028 || n == 0x2029 || n == 0x202f || n == 0x205f || n == 0x3000

/-- Model of Python `s.strip(chars)`: drop characters satisfying `p` from
both ends. -/
def pyStripChars (p : Char → Bool) (s : String) : String :=
  String.mk (((s.data.dropWhile p).reverse.dropWhile p).reverse)

/-- Model of Python `s.strip()` (no argument): strip whitespace from both
ends. -/
def pyStripWS (s : String) : String := pyStripChars isPySpace s

/-- Model of Python `s.replace(a, b)` for one-character `a` and `b`. -/
def pyReplace (s : String) (a b : Char) : String :=
  String.mk (s.data.map (fun c => if c = a then b else c))

/-- Model of Python `s.replace(a, b)` for a one-character pattern `a` and a
string replacement `b`. -/
def pyReplaceCS (s : String) (a : Char) (b : String) : String :=
  String.mk (s.data.flatMap (fun c => if c = a then b.data else [c]))

/-- Splitting a character list at every separator satisfying `p`; the
separators are dropped and empty pieces are kept, as Python
`s.split(sep)` does. -/
def splitP (p : Char → Bool) : List Char → List (List Char)
  | [] => [[]]
  | c :: cs =>
      if p c then [] :: splitP p cs
      else
        match splitP p cs with
        | h :: t => (c :: h) :: t
        | [] => [[c]]

/-- Model of Python `s.split(sep)` for a one-character separator. -/
def pySplitChar (s : String) (sep : Char) : List String :=
  (splitP (fun c => c == sep) s.data).map String.mk

/-- Characters treated as line breaks by Python `str.splitlines`. -/
def isLineBreakChar (c : Char) : Bool :=
  c == '\n' || c == '\r' || c == '\x0b' || c == '\x0c' || c == '\x1c' ||
    c == '\x1d' || c == '\x1e' || c == '\x85' || c == '\u2028' || c == '\u2029'

/-- Worker for `splitlinesStr`; `cur` holds the current line reversed. -/
def splitlinesGo : List Char → List Char → List (List Char)
  | cur, [] => if cur.isEmpty then [] else [cur.reverse]
  | cur, '\r' :: '\n' :: rest => cur.reverse :: splitlinesGo [] rest
  | cur, c :: rest =>
      if isLineBreakChar c then cur.reverse :: splitlinesGo [] rest
      else splitlinesGo (c :: cur) rest

/-- Model of Python `s.splitlines()`: split at line-break characters
(`\r\n` counts as one break); a trailing break produces no trailing empty
line. -/
def splitlinesStr (s : String) : List String :=
  (splitlinesGo [] s.data).map String.mk

/-- Python slicing `s[:n]` on strings operates on Unicode code points;
`String.data` is exactly the list of code points of a Lean string. -/
def takeCP (n : Nat) (s : String) : String := String.mk (s.data.take n)

/-- Model of `"\n".join(lines)`. -/
def joinNL : List String → String
  | [] => ""
  | [s] => s
  | s :: rest => s ++ "\n" ++ joinNL rest

/-- The first line of a rendered block (everything before the first
newline). -/
def firstLine (s : String) : String :=
  String.mk (s.data.takeWhile (fun c => c != '\n'))

/-- Line 47-51 of `convert.py`: `ai = item.get("AI") or item.get("ai") or {}`
followed by `if not ai or not isinstance(ai, dict): ai = {}`.  Returns the
selected annotation entries together with the record key they alias
(`some k` exactly when `ai` is the very dict object stored under `item[k]`,
so that later in-place updates of `ai` are visible through the record). -/
def pickAi (fs : List (String × Json)) : Option String × List (String × Json) :=
  if truthy (getD fs "AI") then
    match getD fs "AI" with
    | Json.obj a => (some "AI", a)
    | _ => (none, [])
  else if truthy (getD fs "ai") then
    match getD fs "ai" with
    | Json.obj a => (some "ai", a)
    | _ => (none, [])
  else (none, [])

/-- Python slicing `x[:140]`, defined on the values it is defined on in
Python (strings and lists); anything else raises `TypeError`. -/
def pySlice140 : Json → Except PyErr Json
  | Json.str s => Except.ok (Json.str (takeCP 140 s))
  | Json.arr xs => Except.ok (Json.arr (xs.take 140))
  | _ => Except.error PyErr.typeError

/-- Line 57 of `convert.py`, the default argument of
`ai.setdefault("tldr", item.get("tldr") or (item.get("abstract") or "")[:140])`:
short-circuiting `or`, then a slice that can raise on a non-sliceable
truthy `abstract`. -/
def tldrDefault (fs : List (String × Json)) : Except PyErr Json :=
  if truthy (getD fs "tldr") then Except.ok (getD fs "tldr")
  else pySlice140 (pyOr (getD fs "abstract") (Json.str ""))

/-- Lines 60-70 of `convert.py`: normalization of `ai.get("highlights")`.
A list is stringified/stripped with empties dropped; a string is split into
pieces (full-width semicolons first replaced), pieces that are whitespace-only
are dropped and the kept ones stripped of `" •- \t"` on both ends, and a
single remaining piece containing a semicolon is re-split on semicolons;
anything else yields the empty list. -/
def isBulletChar (c : Char) : Bool := c == ' ' || c == '•' || c == '-' || c == '\t'

/-- See `isBulletChar`; this is the `highlights` normalization itself. -/
def normHighlights : Option Json → List String
  | some (Json.arr xs) =>
      xs.filterMap (fun x =>
        if pyStripWS (pyStr x) = "" then none else some (pyStripWS (pyStr x)))
  | some (Json.str s) =>
      let pieces := (splitlinesStr (pyReplace s '；' ';')).filterMap
        (fun p => if pyStripWS p = "" then none else some (pyStripChars isBulletChar p))
      match pieces with
      | [p0] =>
          if p0.data.contains ';' then
            (pySplitChar p0 ';').filterMap
              (fun q => if pyStripWS q = "" then none else some (pyStripWS q))
          else [p0]
      | ps => ps
  | _ => []

/-- Lines 42-73 of `convert.py` (`normalize_ai_block`).  The input is the
whole record; on a non-mapping record the very first `item.get` raises
`AttributeError`, matching Python.  The result is the filled annotation
dict together with the record as it stands after the call: `setdefault`
and the `highlights` assignment mutate `ai` in place, and when `ai`
aliases `item["AI"]`/`item["ai"]` the mutation is visible in the record. -/
def normalize_ai_block (item : Json) :
    Except PyErr (List (String × Json) × List (String × Json)) :=
  match item with
  | Json.obj fs =>
      match pickAi fs with
      | (aliasKey, ai0) =>
        let ai1 := setdefault ai0 "title_zh"
          (pyOr (getD fs "title_zh") (pyOr (getD fs "title") (Json.str "")))
        let ai2 := setdefault ai1 "summary_zh"
          (pyOr (getD fs "summary_zh")
            (pyOr (getD fs "abstract") (pyOr (getD fs "summary") (Json.str ""))))
        match tldrDefault fs with
        | Except.error e => Except.error e
        | Except.ok tdv =>
          let ai3 := setdefault ai2 "tldr" tdv
          let hl := normHighlights (dictGet ai3 "highlights")
          let ai4 := dictSet ai3 "highlights" (Json.arr (hl.map Json.str))
          let fs2 := match aliasKey with
            | some k => dictSet fs k (Json.obj ai4)
            | none => fs
          Except.ok (ai4, fs2)
  | _ => Except.error PyErr.attributeError

/-- Worker for the sequence branch of `norm_list` (lines 84-94 of
`convert.py`): the `for x in val` loop building `out`. -/
def normListOut : List Json → List String
  | [] => []
  | Json.obj d :: xs =>
      let name := pyOr (getD d "name") (pyOr (getD d "author") (getD d "text"))
      if truthy name then pyStripWS (pyStr name) :: normListOut xs
      else normListOut xs
  | x :: xs => pyStripWS (pyStr x) :: normListOut xs

/-- Lines 76-95 of `convert.py` (`norm_list`): normalize an authors or
categories value to a list of strings. -/
def norm_list : Json → List String
  | Json.null => []
  | Json.str s =>
      (pySplitChar (pyReplace (pyReplace s '；' ';') ',' ';') ';').filterMap
        (fun p => if pyStripWS p = "" then none else some (pyStripWS p))
  | Json.arr xs => (normListOut xs).filter (fun p => !(p == ""))
  | v => [pyStripWS (pyStr v)]

/-- Lines 98-118 of `convert.py` (`pick_id_and_urls`). The URLs keep their
raw (possibly non-string) record values, as the source does; only the
identifier is coerced with `str(...).strip()`. -/
def pick_id_and_urls (fs : List (String × Json)) : String × Json × Json :=
  let raw := pyOr (getD fs "arxiv_id")
    (pyOr (getD fs "id") (pyOr (getD fs "arxivId") (pyOr (getD fs "identifier") (Json.str ""))))
  let arxiv_id := pyStripWS (pyStr raw)
  let abs0 := pyOr (getD fs "url") (pyOr (getD fs "link") (Json.str ""))
  let pdf0 := pyOr (getD fs "pdf_url") (Json.str "")
  if arxiv_id != "" then
    (arxiv_id,
     (if truthy abs0 then abs0 else Json.str ("https://arxiv.org/abs/" ++ arxiv_id)),
     (if truthy pdf0 then pdf0 else Json.str ("https://arxiv.org/pdf/" ++ arxiv_id ++ ".pdf")))
  else (arxiv_id, abs0, pdf0)

/-- Lines 152-163 of `convert.py` (`md_escape`): replace `<` and `>` by
HTML entities (the early return for falsy input is the identity on `""`). -/
def md_escape (s : String) : String :=
  pyReplaceCS (pyReplaceCS s '<' "&lt;") '>' "&gt;"

/-- The pattern `str(d.get(k) or "").strip()` used for the title, tldr and
summary fields in `render_item_md`. -/
def strField (d : List (String × Json)) (k : String) : String :=
  pyStripWS (pyStr (pyOr (getD d k) (Json.str "")))

/-- Line 184 of `convert.py`:
`display_title = title_zh or title_en or arxiv_id or f"Item #{idx}"`
(`or` on strings selects the first non-empty one). -/
def displayTitle (idx : Nat) (ai fs : List (String × Json)) : String :=
  let title_zh := strField ai "title_zh"
  let title_en := strField fs "title"
  let arxiv_id := (pick_id_and_urls fs).1
  if title_zh != "" then title_zh
  else if title_en != "" then title_en
  else if arxiv_id != "" then arxiv_id
  else "Item #" ++ toString idx

/-- Lines 169-213 of `convert.py` (`render_item_md`).  Returns the rendered
block together with the record as mutated by `normalize_ai_block`; all the
later `item.get` lookups read that mutated record, as Python does. -/
def render_item_md (idx : Nat) (item : Json) :
    Except PyErr (String × List (String × Json)) :=
  match normalize_ai_block item with
  | Except.error e => Except.error e
  | Except.ok (ai, fs) =>
      let title_en := strField fs "title"
      let title_zh := strField ai "title_zh"
      let tldr := strField ai "tldr"
      let summary_zh := strField ai "summary_zh"
      let highlights : List Json :=
        match pyOr (getD ai "highlights") (Json.arr []) with
        | Json.arr hs => hs
        | _ => []
      let authors := norm_list (pyOr (getD fs "authors") (getD fs "author"))
      let categories := norm_list (pyOr (getD fs "categories") (getD fs "category"))
      let pid := pick_id_and_urls fs
      let arxiv_id := pid.1
      let abs_url := pid.2.1
      let pdf_url := pid.2.2
      let l1 : List String := ["### " ++ md_escape (displayTitle idx ai fs)]
      let l2 := l1 ++ (if truthy abs_url then
        ["- **arXiv**: [" ++ (if arxiv_id != "" then arxiv_id else "link") ++ "](" ++
          pyStr abs_url ++ ")" ++
          (if truthy pdf_url then "  ·  [PDF](" ++ pyStr pdf_url ++ ")" else "")]
        else [])
      let l3 := l2 ++ (if title_en != "" && title_zh != "" then
        ["- **Title (EN)**: " ++ md_escape title_en] else [])
      let l4 := l3 ++ (if !authors.isEmpty then
        ["- **Authors**: " ++ String.intercalate ", " (authors.map md_escape)] else [])
      let l5 := l4 ++ (if !categories.isEmpty then
        ["- **Categories**: " ++ String.intercalate ", " (categories.map md_escape)] else [])
      let l6 := l5 ++ (if tldr != "" then ["- **TL;DR**: " ++ md_escape tldr] else [])
      let l7 := l6 ++ (if !highlights.isEmpty then
        "- **Highlights:**" :: highlights.filterMap (fun h =>
          if pyStripWS (pyStr h) = "" then none
          else some ("  - " ++ md_escape (pyStripWS (pyStr h))))
        else [])
      let l8 := l7 ++ (if summary_zh != "" then ["", md_escape summary_zh] else [])
      let l9 := l8 ++ [""]
      Except.ok (joinNL l9, fs)

/-- Lines 233-235 of `convert.py`: `for i, item in enumerate(items, 1)`
rendering each item; the first argument is the index of the head. -/
def renderItems : Nat → List Json → Except PyErr (List String)
  | _, [] => Except.ok []
  | i, it :: rest =>
      match render_item_md i it with
      | Except.error e => Except.error e
      | Except.ok (md, _) =>
          match renderItems (i + 1) rest with
          | Except.error e => Except.error e
          | Except.ok tl => Except.ok (md :: tl)

/-- The digest title `arXiv Daily · {date} · {count} papers`. -/
def dayTitle (date_str : String) (count : Nat) : String :=
  "arXiv Daily · " ++ date_str ++ " · " ++ toString count ++ " papers"

/-- The front-matter and heading lines of the digest, in the fixed order
emitted by lines 221-231 of `convert.py`. -/
def dayHeaderLines (date_str : String) (count : Nat) : List String :=
  ["---",
   "title: \"" ++ dayTitle date_str count ++ "\"",
   "date: " ++ date_str,
   "layout: post",
   "tags: [arxiv, daily]",
   "---",
   "",
   "# " ++ dayTitle date_str count,
   ""]

/-- Lines 216-237 of `convert.py` (`render_day_md`). -/
def render_day_md (date_str : String) (items : List Json) : Except PyErr String :=
  let count := items.length
  let title := "arXiv Daily · " ++ date_str ++ " · " ++ toString count ++ " papers"
  let fm : List String :=
    ["---",
     "title: \"" ++ title ++ "\"",
     "date: " ++ date_str,
     "layout: post",
     "tags: [arxiv, daily]",
     "---",
     "",
     "# " ++ title,
     ""]
  match renderItems 1 items with
  | Except.error e => Except.error e
  | Except.ok body => Except.ok (joinNL (fm ++ body))

/-- The `%m` directive of `datetime.strptime`, which CPython compiles to
the regex alternation `1[0-2]|0[1-9]|[1-9]` (tried left to right). -/
def matchMonth : List Char → Option (Nat × List Char)
  | c1 :: c2 :: rest =>
      if c1 = '1' && (c2 = '0' || c2 = '1' || c2 = '2') then
        some (10 + (c2.toNat - 48), rest)
      else if c1 = '0' && ('1' ≤ c2 && c2 ≤ '9') then some (c2.toNat - 48, rest)
      else if '1' ≤ c1 && c1 ≤ '9' then some (c1.toNat - 48, c2 :: rest)
      else none
  | [c1] => if '1' ≤ c1 && c1 ≤ '9' then some (c1.toNat - 48, []) else none
  | [] => none

/-- The `%d` directive of `datetime.strptime`, compiled by CPython to
`3[01]|[12]\d|0[1-9]|[1-9]` (tried left to right). -/
def matchDay : List Char → Option (Nat × List Char)
  | c1 :: c2 :: rest =>
      if c1 = '3' && (c2 = '0' || c2 = '1') then some (30 + (c2.toNat - 48), rest)
      else if (c1 = '1' || c1 = '2') && c2.isDigit then
        some (10 * (c1.toNat - 48) + (c2.toNat - 48), rest)
      else if c1 = '0' && ('1' ≤ c2 && c2 ≤ '9') then some (c2.toNat - 48, rest)
      else if '1' ≤ c1 && c1 ≤ '9' then some (c1.toNat - 48, c2 :: rest)
      else none
  | [c1] => if '1' ≤ c1 && c1 ≤ '9' then some (c1.toNat - 48, []) else none
  | [] => none

/-- Gregorian leap years, as implemented by `datetime`. -/
def isLeap (y : Nat) : Bool := (y % 4 == 0 && y % 100 != 0) || y % 400 == 0

/-- Days in a month, as checked by the `datetime` constructor. -/
def daysInMonth (y m : Nat) : Nat :=
  if m = 2 then (if isLeap y then 29 else 28)
  else if m = 4 || m = 6 || m = 9 || m = 11 then 30
  else 31

/-- Model of `datetime.strptime(s, "%Y-%m-%d")`: `%Y` is exactly four
digits, the whole string must be consumed, and the resulting triple must be
a constructible date (`year ≥ 1`, day within the month).  `none` models the
raised `ValueError`. -/
def strptimeYMD (s : String) : Option (Nat × Nat × Nat) :=
  match s.data with
  | y1 :: y2 :: y3 :: y4 :: '-' :: rest =>
      if y1.isDigit && y2.isDigit && y3.isDigit && y4.isDigit then
        let y := 1000 * (y1.toNat - 48) + 100 * (y2.toNat - 48) +
          10 * (y3.toNat - 48) + (y4.toNat - 48)
        match matchMonth rest with
        | some (m, '-' :: rest2) =>
            match matchDay rest2 with
            | some (d, []) =>
                if 1 ≤ y && d ≤ daysInMonth y m then some (y, m, d) else none
            | _ => none
        | _ => none
      else none
  | _ => none

/-- The final path component (`Path(...).name`). -/
def lastComponent (p : String) : String := (pySplitChar p '/').getLastD ""

/-- Index of the last `.` in a list of characters, if any. -/
def lastDotIdx (cs : List Char) : Option Nat :=
  ((cs.enum.filter (fun p => p.2 == '.')).getLast?).map (fun p => p.1)

/-- `Path(...).stem` as implemented by CPython: the name without its suffix,
where a suffix exists only when the last dot is neither leading nor
trailing. -/
def stemOfName (name : String) : String :=
  match lastDotIdx name.data with
  | some i =>
      if 0 < i && i < name.data.length - 1 then String.mk (name.data.take i)
      else name
  | none => name

/-- Lines 137-149 of `convert.py` (`derive_date_from_filename`).  The
`try/except` around `strptime` is modelled by the `Option`; `todayUTC`
is the string `datetime.utcnow().strftime("%Y-%m-%d")` would produce, passed
in as a parameter since the current date is an input of the run. -/
def derive_date_from_filename (path : String) (todayUTC : String) : String :=
  let stem := stemOfName (lastComponent path)
  let candidate := takeCP 10 stem
  match strptimeYMD candidate with
  | some _ => candidate
  | none => todayUTC

lemma dictGet_append_ne (d : List (String × Json)) (k k2 : String) (v : Json)
    (h : k2 ≠ k) : dictGet (d ++ [(k, v)]) k2 = dictGet d k2 := by
  induction d with
  | nil => simp [dictGet, h.symm]
  | cons p rest ih =>
      obtain ⟨k1, v1⟩ := p
      by_cases hk : k1 = k2 <;> simp [dictGet, hk, ih]

lemma dictGet_append_self (d : List (String × Json)) (k : String) (v : Json)
    (h : dictGet d k = none) : dictGet (d ++ [(k, v)]) k = some v := by
  induction d with
  | nil => simp [dictGet]
  | cons p rest ih =>
      obtain ⟨k1, v1⟩ := p
      by_cases hk : k1 = k
      · simp [dictGet, hk] at h
      · simp [dictGet, hk] at h ⊢
        exact ih h

lemma dictGet_setdefault_ne (d : List (String × Json)) (k k2 : String) (v : Json)
    (h : k2 ≠ k) : dictGet (setdefault d k v) k2 = dictGet d k2 := by
  unfold setdefault
  split
  · rfl
  · exact dictGet_append_ne d k k2 v h

lemma dictGet_setdefault_present (d : List (String × Json)) (k : String)
    (v w : Json) (h : dictGet d k = some w) :
    dictGet (setdefault d k v) k = some w := by
  unfold setdefault
  rw [h]
  simp [h]

lemma dictGet_setdefault_absent (d : List (String × Json)) (k : String) (v : Json)
    (h : dictGet d k = none) : dictGet (setdefault d k v) k = some v := by
  unfold setdefault
  rw [h]
  simpa using dictGet_append_self d k v h

lemma dictGet_setdefault_pres (d : List (String × Json)) (k k2 : String)
    (v w : Json) (h : dictGet d k2 = some w) :
    dictGet (setdefault d k v) k2 = some w := by
  by_cases hk : k2 = k
  · subst hk
    exact dictGet_setdefault_present d k2 v w h
  · rw [dictGet_setdefault_ne d k k2 v hk]
    exact h

lemma dictGet_setdefault_isSome (d : List (String × Json)) (k : String) (v : Json) :
    (dictGet (setdefault d k v) k).isSome := by
  cases h : dictGet d k with
  | none => simp [dictGet_setdefault_absent d k v h]
  | some w => simp [dictGet_setdefault_present d k v w h]

lemma dictGet_map_overwrite (d : List (String × Json)) (k : String) (v : Json)
    (h : (dictGet d k).isSome) :
    dictGet (d.map (fun p => if p.1 == k then (k, v) else p)) k = some v := by
  induction d with
  | nil => simp [dictGet] at h
  | cons p rest ih =>
      obtain ⟨k1, v1⟩ := p
      rw [List.map_cons]
      by_cases hk : k1 = k
      · rw [if_pos (show ((k1, v1).1 == k) = true from beq_iff_eq.mpr hk)]
        simp [dictGet]
      · rw [if_neg (show ¬ ((k1, v1).1 == k) = true by simpa using hk)]
        simp only [dictGet] at h ⊢
        rw [if_neg (show ¬ (k1 == k) = true by simpa using hk)] at h ⊢
        exact ih h

lemma dictGet_map_overwrite_ne (d : List (String × Json)) (k k2 : String) (v : Json)
    (h : k2 ≠ k) :
    dictGet (d.map (fun p => if p.1 == k then (k, v) else p)) k2 = dictGet d k2 := by
  induction d with
  | nil => rfl
  | cons p rest ih =>
      obtain ⟨k1, v1⟩ := p
      rw [List.map_cons]
      by_cases hk : k1 = k
      · rw [if_pos (show ((k1, v1).1 == k) = true from beq_iff_eq.mpr hk)]
        subst hk
        simp only [dictGet]
        rw [if_neg (show ¬ (k1 == k2) = true by simpa using (Ne.symm h)),
          if_neg (show ¬ (k1 == k2) = true by simpa using (Ne.symm h))]
        exact ih
      · rw [if_neg (show ¬ ((k1, v1).1 == k) = true by simpa using hk)]
        simp only [dictGet]
        by_cases hk2 : k1 = k2
        · rw [if_pos (beq_iff_eq.mpr hk2), if_pos (beq_iff_eq.mpr hk2)]
        · rw [if_neg (show ¬ (k1 == k2) = true by simpa using hk2),
            if_neg (show ¬ (k1 == k2) = true by simpa using hk2)]
          exact ih

lemma dictGet_dictSet_self (d : List (String × Json)) (k : String) (v : Json) :
    dictGet (dictSet d k v) k = some v := by
  unfold dictSet
  split
  · next hs => exact dictGet_map_overwrite d k v hs
  · next hs =>
      apply dictGet_append_self
      simpa using hs

lemma dictGet_dictSet_ne (d : List (String × Json)) (k k2 : String) (v : Json)
    (h : k2 ≠ k) : dictGet (dictSet d k v) k2 = dictGet d k2 := by
  unfold dictSet
  split
  · exact dictGet_map_overwrite_ne d k k2 v h
  · exact dictGet_append_ne d k k2 v h

/-- Discriminator for mapping values: `isinstance(x, dict)` on a parsed
JSON value. -/
def isObjB : Json → Bool
  | Json.obj _ => true
  | _ => false

/-- CLAIM C1 (counterexample).  The claim says a line that parses as valid
JSON but is not an object is tolerated downstream, never raises and renders
like an empty record.  At the concrete non-object value `42` the renderer
raises `AttributeError` (Python: `int` has no attribute `get`), while the
empty record renders to a Markdown block, so the claim is false. -/
theorem nonobject_record_cex :
    render_item_md 1 (Json.num 42) = Except.error PyErr.attributeError
    ∧ render_item_md 1 (Json.obj []) = Except.ok ("### Item #1\n", []) :=
  ⟨rfl, rfl⟩

/-- CLAIM C1 (amended).  A line parsing as valid JSON but not as an object
is passed through unchanged by the line reader, but downstream field
lookups do not tolerate it: `normalize_ai_block` (the first `item.get`)
raises `AttributeError`, so rendering such a record fails instead of
producing the output of an empty record. -/
theorem nonobject_record_raises (idx : Nat) (j : Json) (h : isObjB j = false) :
    normalize_ai_block j = Except.error PyErr.attributeError
    ∧ render_item_md idx j = Except.error PyErr.attributeError := by
  cases j <;> simp_all [isObjB, normalize_ai_block, render_item_md]

/-- Witness for `nonobject_record_raises` at the value `42`. -/
theorem nonobject_record_raises_witness :
    normalize_ai_block (Json.num 42) = Except.error PyErr.attributeError
    ∧ render_item_md 7 (Json.num 42) = Except.error PyErr.attributeError :=
  nonobject_record_raises 7 (Json.num 42) rfl

/-- Strip characters satisfying `p` from the left end only (`str.lstrip`). -/
def lstripChars (p : Char → Bool) (s : String) : String :=
  String.mk (s.data.dropWhile p)

/-- Bullet markers and whitespace, the set the claim says is stripped from
the front of each highlight piece. -/
def isClaimBullet (c : Char) : Bool := c == '•' || c == '-' || isPySpace c

/-- CLAIM C2, formalised literally from its words: replace full-width
semicolons with ASCII ones, split on line breaks, strip each resulting
piece of its LEADING bullet markers and whitespace, drop empty pieces;
if exactly one non-empty piece remains and contains a semicolon, re-split
it on semicolons and trim each part (the claim states no dropping of empty
parts at this second stage). -/
def claimHighlightsLeading (s : String) : List String :=
  let pieces := ((splitlinesStr (pyReplace s '；' ';')).map
    (lstripChars isClaimBullet)).filter (fun p => !(p == ""))
  match pieces with
  | [p0] =>
      if p0.data.contains ';' then (pySplitChar p0 ';').map pyStripWS else [p0]
  | ps => ps

/-- CLAIM C2 (counterexample).  On the highlight string `"•a;;b -"` the code
strips bullet markers from BOTH ends and drops empty parts after the
semicolon re-split, producing `["a", "b"]`, while the claim as stated
(leading-only strip, no drop after re-split) predicts `["a", "", "b -"]`. -/
theorem highlights_string_claim_cex :
    normHighlights (some (Json.str "•a;;b -")) = ["a", "b"]
    ∧ claimHighlightsLeading "•a;;b -" = ["a", "", "b -"]
    ∧ (["a", "b"] : List String) ≠ ["a", "", "b -"] :=
  ⟨rfl, rfl, by decide⟩

/-- The amended description of the string branch of `highlights`
normalization: pieces that are whitespace-only are dropped, the kept pieces
are stripped of bullet markers and whitespace on BOTH ends, and the
semicolon re-split trims its parts and drops the empty ones. -/
def amendedHighlightsStr (s : String) : List String :=
  let pieces := ((splitlinesStr (pyReplace s '；' ';')).filter
    (fun p => !(pyStripWS p == ""))).map (pyStripChars isBulletChar)
  match pieces with
  | [p0] =>
      if p0.data.contains ';' then
        ((pySplitChar p0 ';').map pyStripWS).filter (fun r => !(r == ""))
      else [p0]
  | ps => ps

lemma filterMap_strip_map (f : String → String) (l : List String) :
    l.filterMap (fun p => if pyStripWS p = "" then none else some (f p)) =
      (l.filter (fun p => !(pyStripWS p == ""))).map f := by
  induction l with
  | nil => rfl
  | cons a t ih => by_cases h : pyStripWS a = "" <;> simp [h, ih]

lemma filterMap_stripWS (l : List String) :
    l.filterMap (fun q => if pyStripWS q = "" then none else some (pyStripWS q)) =
      (l.map pyStripWS).filter (fun r => !(r == "")) := by
  induction l with
  | nil => rfl
  | cons a t ih => by_cases h : pyStripWS a = "" <;> simp [h, ih]

lemma normHighlights_str_eq (s : String) :
    normHighlights (some (Json.str s)) = amendedHighlightsStr s := by
  simp only [normHighlights, amendedHighlightsStr]
  rw [filterMap_strip_map]
  cases hp : ((splitlinesStr (pyReplace s '；' ';')).filter
      (fun p => !(pyStripWS p == ""))).map (pyStripChars isBulletChar) with
  | nil => rfl
  | cons p0 t =>
      cases t with
      | nil =>
          simp only
          split
          · rw [filterMap_stripWS]
          · rfl
      | cons q0 t2 => rfl

/-- CLAIM C2 (amended).  The string branch of `highlights` normalization
equals the amended description (both-ends strip of `" •- \t"`, whitespace
pieces dropped, empty parts dropped after the re-split), and the concrete
example of the claim holds: `"point one；point two"` normalizes to
`["point one", "point two"]`. -/
theorem highlights_string_amended :
    (∀ s, normHighlights (some (Json.str s)) = amendedHighlightsStr s)
    ∧ normHighlights (some (Json.str "point one；point two")) =
        ["point one", "point two"] :=
  ⟨normHighlights_str_eq, rfl⟩

/-- CLAIM C5, formalised literally from its words: a mapping element
contributes the value of its FIRST PRESENT key among `name`, `author`,
`text`; any other element contributes its direct string form; every
contribution is trimmed and empty contributions are dropped. -/
def claimElemContribution (x : Json) : Option String :=
  match x with
  | Json.obj d =>
      match dictGet d "name", dictGet d "author", dictGet d "text" with
      | some v, _, _ =>
          if pyStripWS (pyStr v) = "" then none else some (pyStripWS (pyStr v))
      | none, some v, _ =>
          if pyStripWS (pyStr v) = "" then none else some (pyStripWS (pyStr v))
      | none, none, some v =>
          if pyStripWS (pyStr v) = "" then none else some (pyStripWS (pyStr v))
      | none, none, none => none
  | x =>
      if pyStripWS (pyStr x) = "" then none else some (pyStripWS (pyStr x))

/-- Per-element contribution as the code actually computes it: for a
mapping, `x.get("name") or x.get("author") or x.get("text")` selects the
first TRUTHY value and the element is skipped when the chain is falsy. -/
def codeElemContribution (x : Json) : Option String :=
  match x with
  | Json.obj d =>
      let name := pyOr (getD d "name") (pyOr (getD d "author") (getD d "text"))
      if truthy name then
        (if pyStripWS (pyStr name) = "" then none else some (pyStripWS (pyStr name)))
      else none
  | x =>
      if pyStripWS (pyStr x) = "" then none else some (pyStripWS (pyStr x))

/-- CLAIM C5 (counterexample).  For the element
`{"name": "", "author": "Bob"}` the first PRESENT key is `name`, whose
value trims to empty, so the claim predicts no contribution; the code
selects the first TRUTHY value and contributes `"Bob"`. -/
theorem norm_list_claim_cex :
    norm_list (Json.arr [Json.obj [("name", Json.str ""), ("author", Json.str "Bob")]]) =
      ["Bob"]
    ∧ List.filterMap claimElemContribution
        [Json.obj [("name", Json.str ""), ("author", Json.str "Bob")]] = []
    ∧ (["Bob"] : List String) ≠ [] :=
  ⟨rfl, rfl, by decide⟩

/-- CLAIM C5 (amended).  The sequence branch of `norm_list` processes
elements in order; a mapping element contributes the first TRUTHY value of
its `name`, `author`, `text` lookups (and nothing when all three are falsy
or absent), any other element contributes its direct string form; every
contribution is trimmed and empty contributions are dropped, preserving
order. -/
theorem norm_list_seq_amended (xs : List Json) :
    norm_list (Json.arr xs) = xs.filterMap codeElemContribution := by
  show (normListOut xs).filter (fun p => !(p == "")) = xs.filterMap codeElemContribution
  induction xs with
  | nil => rfl
  | cons x t ih =>
      cases x with
      | obj d =>
          simp only [normListOut, codeElemContribution, List.filterMap_cons]
          by_cases ht : truthy (pyOr (getD d "name") (pyOr (getD d "author") (getD d "text")))
          · simp only [ht, if_true]
            by_cases hs : pyStripWS (pyStr (pyOr (getD d "name")
                (pyOr (getD d "author") (getD d "text")))) = ""
            · simp [hs, ih]
            · simp [hs, ih]
          · simp [ht, ih]
      | null =>
          simp only [normListOut, codeElemContribution, List.filterMap_cons]
          by_cases hs : pyStripWS (pyStr Json.null) = "" <;> simp [hs, ih]
      | bool b =>
          simp only [normListOut, codeElemContribution, List.filterMap_cons]
          by_cases hs : pyStripWS (pyStr (Json.bool b)) = "" <;> simp [hs, ih]
      | num n =>
          simp only [normListOut, codeElemContribution, List.filterMap_cons]
          by_cases hs : pyStripWS (pyStr (Json.num n)) = "" <;> simp [hs, ih]
      | str s =>
          simp only [normListOut, codeElemContribution, List.filterMap_cons]
          by_cases hs : pyStripWS (pyStr (Json.str s)) = "" <;> simp [hs, ih]
      | arr ys =>
          simp only [normListOut, codeElemContribution, List.filterMap_cons]
          by_cases hs : pyStripWS (pyStr (Json.arr ys)) = "" <;> simp [hs, ih]

/-- The separator set the claim describes for authors/categories strings:
commas and ASCII/full-width semicolons. -/
def isListSep (c : Char) : Bool := c == ',' || c == ';' || c == '；'

/-- Composite effect on one character of the two replaces
`.replace("；", ";").replace(",", ";")`. -/
def convSemi (c : Char) : Char := if c = ',' then ';' else if c = '；' then ';' else c

lemma convSemi_eq (c : Char) :
    (if (if c = '；' then ';' else c) = ',' then ';' else (if c = '；' then ';' else c)) =
      convSemi c := by
  unfold convSemi
  by_cases h1 : c = '；'
  · subst h1
    decide
  · simp [h1]

lemma splitP_semi_conv (cs : List Char) :
    splitP (fun c => c == ';') (cs.map convSemi) = splitP isListSep cs := by
  induction cs with
  | nil => rfl
  | cons c t ih =>
      by_cases hs : isListSep c = true
      · have hc : convSemi c = ';' := by
          revert hs
          unfold isListSep convSemi
          by_cases h1 : c = ',' <;> by_cases h2 : c = ';' <;> by_cases h3 : c = '；' <;>
            simp [h1, h2, h3]
        simp only [List.map_cons, splitP, hc, hs]
        simp [ih]
      · have hc : convSemi c = c := by
          revert hs
          unfold isListSep convSemi
          by_cases h1 : c = ',' <;> by_cases h2 : c = ';' <;> by_cases h3 : c = '；' <;>
            simp [h1, h2, h3]
        have hns : ¬ (c == ';') = true := by
          intro hb
          exact hs (by simp [isListSep, beq_iff_eq.mp hb])
        simp only [List.map_cons, splitP, hc]
        rw [if_neg hns, if_neg (by simp_all), ih]

/-- CLAIM C4 (confirmed).  For a string-valued authors/categories field the
normalizer is exactly: split on commas and (full-width or ASCII) semicolons,
trim each part, drop the empty parts; and the concrete example of the claim
holds. -/
theorem norm_list_string_spec :
    (∀ s, norm_list (Json.str s) =
      ((splitP isListSep s.data).map (fun cs => pyStripWS (String.mk cs))).filter
        (fun p => !(p == "")))
    ∧ norm_list (Json.str "Alice, Bob; Carol") = ["Alice", "Bob", "Carol"] := by
  constructor
  · intro s
    show (pySplitChar (pyReplace (pyReplace s '；' ';') ',' ';') ';').filterMap
        (fun p => if pyStripWS p = "" then none else some (pyStripWS p)) = _
    rw [filterMap_stripWS]
    unfold pySplitChar pyReplace
    have hdata : ((String.mk ((String.mk (s.data.map fun c => if c = '；' then ';' else c)).data.map
        fun c => if c = ',' then ';' else c)).data) = s.data.map convSemi := by
      show ((s.data.map fun c => if c = '；' then ';' else c).map
        fun c => if c = ',' then ';' else c) = s.data.map convSemi
      rw [List.map_map]
      exact List.map_congr_left (fun c _ => convSemi_eq c)
    rw [hdata, splitP_semi_conv, List.map_map]
    rfl
  · rfl

/-- The `or`-chain of record lookups ending in `""`, as used by
`pick_id_and_urls`. -/
def pyOrChain (fs : List (String × Json)) : List String → Json
  | [] => Json.str ""
  | k :: ks => pyOr (getD fs k) (pyOrChain fs ks)

/-- The first non-empty string among the given fields of a record (the
claim-level description of the identifier/URL fallback chains). -/
def firstNonemptyField (fs : List (String × Json)) : List String → String
  | [] => ""
  | k :: ks =>
      match dictGet fs k with
      | some (Json.str s) => if s = "" then firstNonemptyField fs ks else s
      | _ => firstNonemptyField fs ks

/-- A field is absent or holds a string (decidable hypothesis under which
Python truthiness and string non-emptiness coincide). -/
def isStringOrAbsent (fs : List (String × Json)) (k : String) : Bool :=
  match dictGet fs k with
  | none => true
  | some (Json.str _) => true
  | some _ => false

lemma pyOrChain_str (fs : List (String × Json)) (ks : List String)
    (h : ks.all (isStringOrAbsent fs) = true) :
    pyOrChain fs ks = Json.str (firstNonemptyField fs ks) := by
  induction ks with
  | nil => rfl
  | cons k t ih =>
      simp only [List.all_cons, Bool.and_eq_true] at h
      obtain ⟨hk, ht⟩ := h
      simp only [pyOrChain, firstNonemptyField]
      cases hg : dictGet fs k with
      | none => simp [getD, hg, pyOr, truthy, ih ht]
      | some v =>
          cases v with
          | str s =>
              by_cases hs : s = ""
              · subst hs
                simp [getD, hg, pyOr, truthy, ih ht]
              · simp [getD, hg, pyOr, truthy, hs]
          | null => simp [isStringOrAbsent, hg] at hk
          | bool b => simp [isStringOrAbsent, hg] at hk
          | num n => simp [isStringOrAbsent, hg] at hk
          | arr xs => simp [isStringOrAbsent, hg] at hk
          | obj d => simp [isStringOrAbsent, hg] at hk

/-- CLAIM C3 (confirmed).  For a record whose identifier/URL fields are
strings where present, the resolver returns the first non-empty of
`arxiv_id`, `id`, `arxivId`, `identifier` (trimmed, else empty); the
abstract URL is the `url`/`link` lookup, replaced by
`https://arxiv.org/abs/{id}` exactly when that lookup is empty and the
identifier is non-empty, and likewise for the PDF URL from `pdf_url`;
no synthesis happens when the identifier is empty. -/
theorem pick_id_and_urls_spec (fs : List (String × Json))
    (h : (["arxiv_id", "id", "arxivId", "identifier", "url", "link",
      "pdf_url"].all (isStringOrAbsent fs)) = true) :
    pick_id_and_urls fs =
      (pyStripWS (firstNonemptyField fs ["arxiv_id", "id", "arxivId", "identifier"]),
       Json.str
         (if pyStripWS (firstNonemptyField fs ["arxiv_id", "id", "arxivId", "identifier"]) = ""
          then firstNonemptyField fs ["url", "link"]
          else if firstNonemptyField fs ["url", "link"] = ""
            then "https://arxiv.org/abs/" ++
              pyStripWS (firstNonemptyField fs ["arxiv_id", "id", "arxivId", "identifier"])
            else firstNonemptyField fs ["url", "link"]),
       Json.str
         (if pyStripWS (firstNonemptyField fs ["arxiv_id", "id", "arxivId", "identifier"]) = ""
          then firstNonemptyField fs ["pdf_url"]
          else if firstNonemptyField fs ["pdf_url"] = ""
            then "https://arxiv.org/pdf/" ++
              pyStripWS (firstNonemptyField fs ["arxiv_id", "id", "arxivId", "identifier"]) ++ ".pdf"
            else firstNonemptyField fs ["pdf_url"])) := by
  simp only [List.all_cons, List.all_nil, Bool.and_eq_true] at h
  obtain ⟨h1, h2, h3, h4, h5, h6, h7, -⟩ := h
  have hid : pyOr (getD fs "arxiv_id") (pyOr (getD fs "id")
      (pyOr (getD fs "arxivId") (pyOr (getD fs "identifier") (Json.str "")))) =
      Json.str (firstNonemptyField fs ["arxiv_id", "id", "arxivId", "identifier"]) :=
    pyOrChain_str fs ["arxiv_id", "id", "arxivId", "identifier"]
      (by simp [List.all_cons, h1, h2, h3, h4])
  have hurl : pyOr (getD fs "url") (pyOr (getD fs "link") (Json.str "")) =
      Json.str (firstNonemptyField fs ["url", "link"]) :=
    pyOrChain_str fs ["url", "link"] (by simp [List.all_cons, h5, h6])
  have hpdf : pyOr (getD fs "pdf_url") (Json.str "") =
      Json.str (firstNonemptyField fs ["pdf_url"]) :=
    pyOrChain_str fs ["pdf_url"] (by simp [List.all_cons, h7])
  simp only [pick_id_and_urls, hid, hurl, hpdf, pyStr, truthy]
  by_cases ha : pyStripWS (firstNonemptyField fs ["arxiv_id", "id", "arxivId", "identifier"]) = ""
  · simp [ha]
  · by_cases hu : firstNonemptyField fs ["url", "link"] = "" <;>
      by_cases hp : firstNonemptyField fs ["pdf_url"] = "" <;>
        simp [ha, hu, hp]

/-- Witness for `pick_id_and_urls_spec`: the concrete record of the claim,
with `arxiv_id = "2508.01234"` and no explicit URLs, yields the synthesized
abstract and PDF URLs. -/
theorem pick_id_and_urls_spec_witness :
    pick_id_and_urls [("arxiv_id", Json.str "2508.01234")] =
      ("2508.01234", Json.str "https://arxiv.org/abs/2508.01234",
       Json.str "https://arxiv.org/pdf/2508.01234.pdf") := by
  have h := pick_id_and_urls_spec [("arxiv_id", Json.str "2508.01234")] (by decide)
  rw [h]
  rfl

lemma normalize_ai_block_eq (fs : List (String × Json)) (k : Option String)
    (ai0 : List (String × Json)) (tdv : Json)
    (hp : pickAi fs = (k, ai0)) (ht : tldrDefault fs = Except.ok tdv) :
    normalize_ai_block (Json.obj fs) =
      (let ai1 := setdefault ai0 "title_zh"
          (pyOr (getD fs "title_zh") (pyOr (getD fs "title") (Json.str "")));
        let ai2 := setdefault ai1 "summary_zh"
          (pyOr (getD fs "summary_zh")
            (pyOr (getD fs "abstract") (pyOr (getD fs "summary") (Json.str ""))));
        let ai3 := setdefault ai2 "tldr" tdv;
        let ai4 := dictSet ai3 "highlights"
          (Json.arr ((normHighlights (dictGet ai3 "highlights")).map Json.str));
        Except.ok (ai4,
          match k with
          | some k0 => dictSet fs k0 (Json.obj ai4)
          | none => fs)) := by
  simp only [normalize_ai_block, hp, ht]
  cases k <;> rfl

lemma normalize_ai_block_err (fs : List (String × Json)) (k : Option String)
    (ai0 : List (String × Json)) (e : PyErr)
    (hp : pickAi fs = (k, ai0)) (ht : tldrDefault fs = Except.error e) :
    normalize_ai_block (Json.obj fs) = Except.error e := by
  simp only [normalize_ai_block, hp, ht]

lemma dictGet_tldr_setdefaults (ai0 : List (String × Json)) (t1 t2 : Json) :
    dictGet (setdefault (setdefault ai0 "title_zh" t1) "summary_zh" t2) "tldr" =
      dictGet ai0 "tldr" := by
  rw [dictGet_setdefault_ne _ _ _ _ (by decide),
    dictGet_setdefault_ne _ _ _ _ (by decide)]

/-- CLAIM C6 (confirmed).  The normalized annotation's `tldr` entry is: the
annotation's own value when the key is set (regardless of its value), else
the record's `tldr` when truthy, else the first 140 code points of the
record's string `abstract`, else the empty string.  The truncation
`takeCP 140` is `List.take 140` on `String.data`, i.e. on Unicode code
points, exactly as Python slicing of `str` is. -/
theorem normalize_tldr_spec (fs : List (String × Json)) (k : Option String)
    (ai0 : List (String × Json)) (hp : pickAi fs = (k, ai0)) :
    (∀ v, dictGet ai0 "tldr" = some v →
      ∀ ai2 fs2, normalize_ai_block (Json.obj fs) = Except.ok (ai2, fs2) →
        dictGet ai2 "tldr" = some v)
    ∧ (dictGet ai0 "tldr" = none → truthy (getD fs "tldr") = true →
      ∀ ai2 fs2, normalize_ai_block (Json.obj fs) = Except.ok (ai2, fs2) →
        dictGet ai2 "tldr" = some (getD fs "tldr"))
    ∧ (dictGet ai0 "tldr" = none → truthy (getD fs "tldr") = false →
      ∀ s, getD fs "abstract" = Json.str s →
      ∀ ai2 fs2, normalize_ai_block (Json.obj fs) = Except.ok (ai2, fs2) →
        dictGet ai2 "tldr" = some (Json.str (takeCP 140 s)))
    ∧ (dictGet ai0 "tldr" = none → truthy (getD fs "tldr") = false →
      truthy (getD fs "abstract") = false →
      ∀ ai2 fs2, normalize_ai_block (Json.obj fs) = Except.ok (ai2, fs2) →
        dictGet ai2 "tldr" = some (Json.str "")) := by
  refine ⟨?_, ?_, ?_, ?_⟩
  · intro v hv ai2 fs2 hn
    cases ht : tldrDefault fs with
    | error e => rw [normalize_ai_block_err fs k ai0 e hp ht] at hn; cases hn
    | ok tdv =>
        rw [normalize_ai_block_eq fs k ai0 tdv hp ht] at hn
        simp only [Except.ok.injEq, Prod.mk.injEq] at hn
        obtain ⟨hai, -⟩ := hn
        subst hai
        rw [dictGet_dictSet_ne _ _ _ _ (by decide)]
        exact dictGet_setdefault_present _ _ _ _
          ((dictGet_tldr_setdefaults ai0 _ _).trans hv)
  · intro hnone htr ai2 fs2 hn
    have ht : tldrDefault fs = Except.ok (getD fs "tldr") := by
      unfold tldrDefault
      rw [if_pos htr]
    rw [normalize_ai_block_eq fs k ai0 _ hp ht] at hn
    simp only [Except.ok.injEq, Prod.mk.injEq] at hn
    obtain ⟨hai, -⟩ := hn
    subst hai
    rw [dictGet_dictSet_ne _ _ _ _ (by decide)]
    exact dictGet_setdefault_absent _ _ _
      ((dictGet_tldr_setdefaults ai0 _ _).trans hnone)
  · intro hnone htr s habs ai2 fs2 hn
    have ht : tldrDefault fs = Except.ok (Json.str (takeCP 140 s)) := by
      unfold tldrDefault
      rw [if_neg (by simp [htr])]
      rw [habs]
      unfold pyOr
      by_cases hs : s = ""
      · subst hs
        simp [truthy, pySlice140, takeCP]
      · simp [truthy, hs, pySlice140]
    rw [normalize_ai_block_eq fs k ai0 _ hp ht] at hn
    simp only [Except.ok.injEq, Prod.mk.injEq] at hn
    obtain ⟨hai, -⟩ := hn
    subst hai
    rw [dictGet_dictSet_ne _ _ _ _ (by decide)]
    exact dictGet_setdefault_absent _ _ _
      ((dictGet_tldr_setdefaults ai0 _ _).trans hnone)
  · intro hnone htr habs ai2 fs2 hn
    have ht : tldrDefault fs = Except.ok (Json.str "") := by
      unfold tldrDefault
      rw [if_neg (by simp [htr])]
      unfold pyOr
      rw [if_neg (by simp [habs])]
      simp [pySlice140, takeCP]
    rw [normalize_ai_block_eq fs k ai0 _ hp ht] at hn
    simp only [Except.ok.injEq, Prod.mk.injEq] at hn
    obtain ⟨hai, -⟩ := hn
    subst hai
    rw [dictGet_dictSet_ne _ _ _ _ (by decide)]
    exact dictGet_setdefault_absent _ _ _
      ((dictGet_tldr_setdefaults ai0 _ _).trans hnone)

/-- A record whose only field is a 150-code-point Chinese abstract. -/
def tldrCnRec : List (String × Json) :=
  [("abstract", Json.str (String.mk (List.replicate 150 '中')))]

/-- The annotation block `normalize_ai_block` produces for `tldrCnRec`. -/
def tldrCnAi : List (String × Json) :=
  [("title_zh", Json.str ""),
   ("summary_zh", Json.str (String.mk (List.replicate 150 '中'))),
   ("tldr", Json.str (String.mk (List.replicate 140 '中'))),
   ("highlights", Json.arr [])]

/-- Witness for `normalize_tldr_spec`: a record with no annotation and no
`tldr` whose 150-character Chinese abstract is truncated to its first 140
code points. -/
theorem normalize_tldr_spec_witness :
    dictGet tldrCnAi "tldr" = some (Json.str (String.mk (List.replicate 140 '中'))) := by
  have h := (normalize_tldr_spec tldrCnRec none [] rfl).2.2.1 rfl rfl
    (String.mk (List.replicate 150 '中')) rfl tldrCnAi tldrCnRec (by rfl)
  exact h.trans (by rfl)

/-- CLAIM C10 (confirmed).  When the annotation block aliases the record
entry `k` (the `AI`/`ai` field holds a non-empty mapping), normalization
updates that entry in place: the record afterwards holds the filled
annotation under `k` and is unchanged at every other key; inside the
annotation, every pre-existing entry other than `highlights` keeps its
value, the keys `title_zh`, `summary_zh` and `tldr` are present, and
`highlights` is overwritten with the normalized highlight list. -/
theorem normalize_mutation_spec (fs : List (String × Json)) (k : String)
    (ai0 : List (String × Json)) (hp : pickAi fs = (some k, ai0))
    (ai2 fs2 : List (String × Json))
    (hn : normalize_ai_block (Json.obj fs) = Except.ok (ai2, fs2)) :
    fs2 = dictSet fs k (Json.obj ai2)
    ∧ (∀ k2, k2 ≠ k → dictGet fs2 k2 = dictGet fs k2)
    ∧ dictGet fs2 k = some (Json.obj ai2)
    ∧ (∀ k2 v, k2 ≠ "highlights" → dictGet ai0 k2 = some v →
        dictGet ai2 k2 = some v)
    ∧ (dictGet ai2 "title_zh").isSome = true
    ∧ (dictGet ai2 "summary_zh").isSome = true
    ∧ (dictGet ai2 "tldr").isSome = true
    ∧ dictGet ai2 "highlights" =
        some (Json.arr ((normHighlights (dictGet ai0 "highlights")).map Json.str)) := by
  cases ht : tldrDefault fs with
  | error e =>
      rw [normalize_ai_block_err fs (some k) ai0 e hp ht] at hn
      cases hn
  | ok tdv =>
      rw [normalize_ai_block_eq fs (some k) ai0 tdv hp ht] at hn
      simp only [Except.ok.injEq, Prod.mk.injEq] at hn
      obtain ⟨hai, hfs⟩ := hn
      subst hai
      subst hfs
      refine ⟨rfl, ?_, ?_, ?_, ?_, ?_, ?_, ?_⟩
      · intro k2 hne
        exact dictGet_dictSet_ne fs k k2 _ hne
      · exact dictGet_dictSet_self fs k _
      · intro k2 v hne hv
        rw [dictGet_dictSet_ne _ _ _ _ hne]
        exact dictGet_setdefault_pres _ _ _ _ _
          (dictGet_setdefault_pres _ _ _ _ _
            (dictGet_setdefault_pres _ _ _ _ _ hv))
      · rw [dictGet_dictSet_ne _ _ _ _ (by decide)]
        obtain ⟨w, hw⟩ := Option.isSome_iff_exists.mp
          (dictGet_setdefault_isSome ai0 "title_zh"
            (pyOr (getD fs "title_zh") (pyOr (getD fs "title") (Json.str ""))))
        rw [dictGet_setdefault_pres _ _ _ _ _ (dictGet_setdefault_pres _ _ _ _ _ hw)]
        rfl
      · rw [dictGet_dictSet_ne _ _ _ _ (by decide)]
        obtain ⟨w, hw⟩ := Option.isSome_iff_exists.mp
          (dictGet_setdefault_isSome (setdefault ai0 "title_zh"
            (pyOr (getD fs "title_zh") (pyOr (getD fs "title") (Json.str ""))))
            "summary_zh"
            (pyOr (getD fs "summary_zh")
              (pyOr (getD fs "abstract") (pyOr (getD fs "summary") (Json.str "")))))
        rw [dictGet_setdefault_pres _ _ _ _ _ hw]
        rfl
      · rw [dictGet_dictSet_ne _ _ _ _ (by decide)]
        exact dictGet_setdefault_isSome _ _ _
      · rw [dictGet_dictSet_self]
        have hh : dictGet (setdefault (setdefault (setdefault ai0 "title_zh"
            (pyOr (getD fs "title_zh") (pyOr (getD fs "title") (Json.str ""))))
            "summary_zh"
            (pyOr (getD fs "summary_zh")
              (pyOr (getD fs "abstract") (pyOr (getD fs "summary") (Json.str "")))))
            "tldr" tdv) "highlights" = dictGet ai0 "highlights" := by
          rw [dictGet_setdefault_ne _ _ _ _ (by decide),
            dictGet_setdefault_ne _ _ _ _ (by decide),
            dictGet_setdefault_ne _ _ _ _ (by decide)]
        rw [hh]

/-- A record whose `AI` field is a non-empty mapping. -/
def mutRec : List (String × Json) :=
  [("AI", Json.obj [("tldr", Json.str "keep")]), ("x", Json.num 7)]

/-- The annotation `normalize_ai_block` produces for `mutRec`. -/
def mutAi : List (String × Json) :=
  [("tldr", Json.str "keep"), ("title_zh", Json.str ""),
   ("summary_zh", Json.str ""), ("highlights", Json.arr [])]

/-- The record `mutRec` as mutated by `normalize_ai_block`. -/
def mutRec2 : List (String × Json) :=
  [("AI", Json.obj mutAi), ("x", Json.num 7)]

/-- Witness for `normalize_mutation_spec` on `mutRec`: the field `x` is
untouched, the pre-existing `tldr` keeps its value, and `highlights` is
overwritten with the (empty) normalized list. -/
theorem normalize_mutation_spec_witness :
    dictGet mutRec2 "x" = some (Json.num 7)
    ∧ dictGet mutAi "tldr" = some (Json.str "keep")
    ∧ dictGet mutAi "highlights" = some (Json.arr []) := by
  have h := normalize_mutation_spec mutRec "AI" [("tldr", Json.str "keep")] rfl
    mutAi mutRec2 (by rfl)
  refine ⟨(h.2.1 "x" (by decide)).trans (by rfl),
    h.2.2.2.1 "tldr" (Json.str "keep") (by decide) rfl,
    h.2.2.2.2.2.2.2.trans (by rfl)⟩

lemma strData_append (a b : String) : (a ++ b).data = a.data ++ b.data := rfl

lemma strMk_data (s : String) : String.mk s.data = s := rfl

lemma takeWhile_of_all (p : Char → Bool) (l : List Char)
    (h : ∀ c ∈ l, p c = true) : l.takeWhile p = l := by
  induction l with
  | nil => rfl
  | cons c t ih =>
      rw [List.takeWhile_cons, if_pos (h c (by simp))]
      rw [ih (fun c hc => h c (by simp [hc]))]

lemma takeWhile_append_stop (p : Char → Bool) (l1 l2 : List Char) (x : Char)
    (h : ∀ c ∈ l1, p c = true) (hx : p x = false) :
    (l1 ++ x :: l2).takeWhile p = l1 := by
  induction l1 with
  | nil => simp [List.takeWhile_cons, hx]
  | cons c t ih =>
      rw [List.cons_append, List.takeWhile_cons, if_pos (h c (by simp))]
      rw [ih (fun c hc => h c (by simp [hc]))]

lemma firstLine_joinNL (l0 : String) (rest : List String)
    (h : ∀ c ∈ l0.data, c ≠ '\n') :
    firstLine (joinNL (l0 :: rest)) = l0 := by
  have hb : ∀ c ∈ l0.data, (c != '\n') = true := by
    intro c hc
    simpa using h c hc
  cases rest with
  | nil =>
      show String.mk (l0.data.takeWhile (fun c => c != '\n')) = l0
      rw [takeWhile_of_all _ _ hb]
  | cons r rs =>
      show String.mk (((l0 ++ "\n" ++ joinNL (r :: rs))).data.takeWhile
        (fun c => c != '\n')) = l0
      have hd : (l0 ++ "\n" ++ joinNL (r :: rs)).data =
          l0.data ++ '\n' :: (joinNL (r :: rs)).data := by
        rw [strData_append, strData_append]
        simp
      rw [hd, takeWhile_append_stop _ _ _ _ hb (by decide)]

lemma mem_pyReplaceCS (s : String) (a : Char) (b : String) (c : Char)
    (h : c ∈ (pyReplaceCS s a b).data) : c ∈ s.data ∨ c ∈ b.data := by
  simp only [pyReplaceCS] at h
  rw [List.mem_flatMap] at h
  obtain ⟨x, hx, hc⟩ := h
  by_cases hxa : x = a
  · rw [if_pos hxa] at hc
    exact Or.inr hc
  · rw [if_neg hxa] at hc
    simp at hc
    subst hc
    exact Or.inl hx

lemma mem_md_escape (t : String) (c : Char) (h : c ∈ (md_escape t).data) :
    c ∈ t.data ∨ c ∈ "&lt;".data ∨ c ∈ "&gt;".data := by
  unfold md_escape at h
  rcases mem_pyReplaceCS _ _ _ _ h with h2 | h2
  · rcases mem_pyReplaceCS _ _ _ _ h2 with h3 | h3
    · exact Or.inl h3
    · exact Or.inr (Or.inl h3)
  · exact Or.inr (Or.inr h2)

lemma md_escape_no_newline (t : String) (h : ∀ c ∈ t.data, c ≠ '\n') :
    ∀ c ∈ (md_escape t).data, c ≠ '\n' := by
  intro c hc
  rcases mem_md_escape t c hc with h2 | h2 | h2
  · exact h c h2
  · intro he
    subst he
    revert h2
    decide
  · intro he
    subst he
    revert h2
    decide

/-- CLAIM C7 (confirmed).  The first line of a rendered item block is the
level-3 heading with the escaped display title, where the display title
falls back through localized title, English title and identifier to
`Item #{idx}`; the hypothesis that the display title contains no newline
reflects that a title is a single line of text. -/
theorem render_item_heading_spec (idx : Nat) (item : Json)
    (ai fsn : List (String × Json)) (md : String) (fs2 : List (String × Json))
    (hn : normalize_ai_block item = Except.ok (ai, fsn))
    (hr : render_item_md idx item = Except.ok (md, fs2))
    (hnl : ∀ c ∈ (displayTitle idx ai fsn).data, c ≠ '\n') :
    firstLine md = "### " ++ md_escape (displayTitle idx ai fsn)
    ∧ (strField ai "title_zh" = "" → strField fsn "title" = "" →
        (pick_id_and_urls fsn).1 = "" →
        displayTitle idx ai fsn = "Item #" ++ toString idx) := by
  constructor
  · simp only [render_item_md, hn, Except.ok.injEq, Prod.mk.injEq] at hr
    obtain ⟨hmd, -⟩ := hr
    subst hmd
    have hh : ∀ c ∈ ("### " ++ md_escape (displayTitle idx ai fsn)).data, c ≠ '\n' := by
      intro c hc
      rw [strData_append] at hc
      rcases List.mem_append.mp hc with h1 | h1
      · have hc4 : c = '#' ∨ c = '#' ∨ c = '#' ∨ c = ' ' := by simpa using h1
        rcases hc4 with rfl | rfl | rfl | rfl <;> decide
      · exact md_escape_no_newline _ hnl c h1
    simp only [List.append_assoc, List.cons_append, List.nil_append]
    exact firstLine_joinNL _ _ hh
  · intro h1 h2 h3
    simp [displayTitle, h1, h2, h3]

/-- The annotation block `normalize_ai_block` produces for the empty
record. -/
def emptyRecAi : List (String × Json) :=
  [("title_zh", Json.str ""), ("summary_zh", Json.str ""),
   ("tldr", Json.str ""), ("highlights", Json.arr [])]

/-- Witness for `render_item_heading_spec`: an item lacking every title
field and identifier, rendered at position 3, is headed `### Item #3`. -/
theorem render_item_heading_spec_witness :
    firstLine "### Item #3\n" = "### Item #3" := by
  have h := render_item_heading_spec 3 (Json.obj []) emptyRecAi [] "### Item #3\n" []
    (by rfl) (by rfl) (by decide)
  have h2 := h.2 rfl rfl rfl
  refine h.1.trans ?_
  rw [h2]
  decide

lemma renderItems_index (items : List Json) :
    ∀ (n : Nat) (body : List String), renderItems n items = Except.ok body →
      body.length = items.length
      ∧ ∀ i (hi : i < items.length) (hb : i < body.length),
          ∃ f, render_item_md (n + i) (items.get ⟨i, hi⟩) =
            Except.ok (body.get ⟨i, hb⟩, f) := by
  induction items with
  | nil =>
      intro n body h
      simp only [renderItems, Except.ok.injEq] at h
      subst h
      exact ⟨rfl, fun i hi => by simp at hi⟩
  | cons it t ih =>
      intro n body h
      simp only [renderItems] at h
      cases hr : render_item_md n it with
      | error e => rw [hr] at h; cases h
      | ok pr =>
          obtain ⟨md, f⟩ := pr
          rw [hr] at h
          cases hrest : renderItems (n + 1) t with
          | error e => rw [hrest] at h; cases h
          | ok tl =>
              rw [hrest] at h
              simp only [Except.ok.injEq] at h
              subst h
              obtain ⟨hlen, hidx⟩ := ih (n + 1) tl hrest
              refine ⟨by simp [hlen], ?_⟩
              intro i hi hb
              cases i with
              | zero =>
                  refine ⟨f, ?_⟩
                  simpa [Nat.add_zero] using hr
              | succ j =>
                  have hj : j < t.length := by
                    simpa [Nat.succ_lt_succ_iff] using hi
                  have hjb : j < tl.length := by
                    rw [hlen]
                    exact hj
                  obtain ⟨f2, hf2⟩ := hidx j hj hjb
                  refine ⟨f2, ?_⟩
                  have harith : n + (j + 1) = n + 1 + j := by omega
                  rw [harith]
                  exact hf2

/-- CLAIM C8 (confirmed).  The digest is the front-matter block with keys in
the fixed order title/date/layout/tags, the title
`arXiv Daily · {date} · {count} papers` with count the number of records, a
level-1 heading repeating the title, and then the rendered item blocks in
input order with 1-based indices — no reordering, filtering or
deduplication; rendering the empty sequence still yields the complete
front-matter block with count 0. -/
theorem render_day_spec (date : String) (items : List Json) (body : List String)
    (h : renderItems 1 items = Except.ok body) :
    render_day_md date items =
      Except.ok (joinNL (dayHeaderLines date items.length ++ body))
    ∧ body.length = items.length
    ∧ (∀ i (hi : i < items.length) (hb : i < body.length),
        ∃ f, render_item_md (1 + i) (items.get ⟨i, hi⟩) =
          Except.ok (body.get ⟨i, hb⟩, f))
    ∧ render_day_md date [] = Except.ok (joinNL (dayHeaderLines date 0)) := by
  obtain ⟨hlen, hidx⟩ := renderItems_index items 1 body h
  refine ⟨?_, hlen, hidx, ?_⟩
  · simp only [render_day_md, h]
    rfl
  · rfl

/-- Witness for `render_day_spec`: rendering zero items for date
`2025-08-15` produces the full front-matter block and heading with
count 0. -/
theorem render_day_spec_witness :
    render_day_md "2025-08-15" [] =
      Except.ok ("---\ntitle: \"arXiv Daily · 2025-08-15 · 0 papers\"\ndate: 2025-08-15\nlayout: post\ntags: [arxiv, daily]\n---\n\n# arXiv Daily · 2025-08-15 · 0 papers\n") := by
  have h := (render_day_spec "2025-08-15" [] [] rfl).1
  refine h.trans ?_
  rfl

/-- CLAIM C9 (confirmed).  The derived digest date is the first 10
characters of the file's base name without extension whenever these parse
as a `YYYY-MM-DD` date (modelled by `strptimeYMD`), else the current UTC
date string passed in as `todayUTC`; in particular
`2025-08-15_AI_enhanced_Chinese.jsonl` yields `2025-08-15` and
`dump.jsonl` yields the current date. -/
theorem derive_date_spec :
    (∀ todayUTC,
      derive_date_from_filename "2025-08-15_AI_enhanced_Chinese.jsonl" todayUTC =
        "2025-08-15")
    ∧ (∀ todayUTC, derive_date_from_filename "dump.jsonl" todayUTC = todayUTC)
    ∧ (∀ path todayUTC ymd,
        strptimeYMD (takeCP 10 (stemOfName (lastComponent path))) = some ymd →
        derive_date_from_filename path todayUTC =
          takeCP 10 (stemOfName (lastComponent path)))
    ∧ (∀ path todayUTC,
        strptimeYMD (takeCP 10 (stemOfName (lastComponent path))) = none →
        derive_date_from_filename path todayUTC = todayUTC) := by
  refine ⟨fun t => rfl, fun t => rfl, ?_, ?_⟩
  · intro p t ymd h
    simp [derive_date_from_filename, h]
  · intro p t h
    simp [derive_date_from_filename, h]

/-- Witness for `derive_date_spec`: a leap-day file name parses and is
used; an impossible calendar date falls back to the current date. -/
theorem derive_date_spec_witness :
    derive_date_from_filename "2024-02-29_leap.jsonl" "TODAY" = "2024-02-29"
    ∧ derive_date_from_filename "2025-02-29_bad.jsonl" "TODAY" = "TODAY" := by
  constructor
  · have h := derive_date_spec.2.2.1 "2024-02-29_leap.jsonl" "TODAY" (2024, 2, 29)
      (by decide)
    exact h.trans (by decide)
  · exact derive_date_spec.2.2.2 "2025-02-29_bad.jsonl" "TODAY" (by decide)
